import Mathlib

/-!
Shallow embedding of `backend/core/ml_models/ecg_predictor.py`: the lead
geometry mapper, the grid cropper's fallback path, the per-lead score
post-processing of the saliency maps, the ablation record arithmetic, the
three-method consensus engine, the interpretation builder's territory
selection, and the prediction-index remapping.

Modelling conventions:
* Python floats carrying short decimal constants (`0.78`, `0.02`, `1.3`,
  `33.3`, the relative box coordinates) are modelled as exact rationals;
  `int(c * n)` on the non-negative values arising here is modelled as the
  floor, i.e. natural-number division (`int(0.13 * h)` becomes `13 * h / 100`).
* `round(x, 1)` is modelled as rounding `10 * x` to the nearest integer and
  dividing by 10.
* Tensors and images are modelled by rational grids / their pixel
  dimensions; the classifier's outputs (probabilities, masked-pass
  confidences) enter as explicit parameters, since the model itself is an
  external oracle.
* Python's `sorted(keys, key=k, reverse=True)` is a stable descending sort;
  it is modelled by `List.mergeSort` (stable) with the reflexive descending
  comparison on keys.
-/

namespace ECG

/-- The twelve standard lead identifiers, the string keys of the Python
dicts, as an enumeration. -/
inductive Lead
  | I | aVR | V1 | V4 | II | aVL | V2 | V5 | III | aVF | V3 | V6
  deriving DecidableEq, Repr

/-- The enumeration order of the leads as they are inserted into the
`boxes` dict of `RealWorldECGAnalyzer.get_lead_boxes` (and hence the key
order of `lead_scores` and `ablation_results`, which are built by iterating
`lead_boxes.items()`). -/
def leadOrder : List Lead :=
  [.I, .aVR, .V1, .V4, .II, .aVL, .V2, .V5, .III, .aVF, .V3, .V6]

/-- The string spelled by each lead key. -/
def leadName : Lead → String
  | .I => "I" | .aVR => "aVR" | .V1 => "V1" | .V4 => "V4"
  | .II => "II" | .aVL => "aVL" | .V2 => "V2" | .V5 => "V5"
  | .III => "III" | .aVF => "aVF" | .V3 => "V3" | .V6 => "V6"

/-- The `territory` entries of `MultiMethodInterpreter.LEAD_INFO`. -/
def territory : Lead → String
  | .I => "lateral" | .II => "inferior" | .III => "inferior"
  | .aVR => "cavity" | .aVL => "lateral" | .aVF => "inferior"
  | .V1 => "septal" | .V2 => "septal" | .V3 => "anterior"
  | .V4 => "anterior" | .V5 => "lateral" | .V6 => "lateral"

/-- The `artery` entries of `MultiMethodInterpreter.LEAD_INFO`. -/
def artery : Lead → String
  | .I => "LCX" | .II => "RCA" | .III => "RCA"
  | .aVR => "LMCA" | .aVL => "LCX" | .aVF => "RCA"
  | .V1 => "LAD" | .V2 => "LAD" | .V3 => "LAD"
  | .V4 => "LAD" | .V5 => "LCX" | .V6 => "LCX"

/-- A pixel-coordinate rectangle `(x1, y1, x2, y2)`. -/
structure Box where
  x1 : ℕ
  y1 : ℕ
  x2 : ℕ
  y2 : ℕ
  deriving DecidableEq, Repr

/-- The relative rectangle of each lead in the 4x3 template of
`get_lead_boxes`, in hundredths (the source writes them as two-decimal
floats, e.g. `(0.00, 0.13, 0.25, 0.30)` for lead I). -/
def leadBoxPct : Lead → ℕ × ℕ × ℕ × ℕ
  | .I => (0, 13, 25, 30)
  | .aVR => (25, 13, 50, 30)
  | .V1 => (50, 13, 75, 30)
  | .V4 => (75, 13, 100, 30)
  | .II => (0, 33, 25, 50)
  | .aVL => (25, 33, 50, 50)
  | .V2 => (50, 33, 75, 50)
  | .V5 => (75, 33, 100, 50)
  | .III => (0, 53, 25, 70)
  | .aVF => (25, 53, 50, 70)
  | .V3 => (50, 53, 75, 70)
  | .V6 => (75, 53, 100, 70)

/-- Scaling of one relative rectangle to pixel coordinates with
`int(rel * dim)`, modelled as `rel_pct * dim / 100` in natural-number
division. -/
def scaleBox (w h : ℕ) (r : ℕ × ℕ × ℕ × ℕ) : Box :=
  ⟨r.1 * w / 100, r.2.1 * h / 100, r.2.2.1 * w / 100, r.2.2.2 * h / 100⟩

/-- `RealWorldECGAnalyzer.get_lead_boxes(image_width, image_height)`.
The returned association list preserves the dict's key order. -/
def get_lead_boxes (w h : ℕ) : List (Lead × Box) :=
  leadOrder.map fun l => (l, scaleBox w h (leadBoxPct l))

/-- Scaled coordinates respect strict order once the scaled gap clears one
whole pixel. -/
theorem scale_lt (p q d : ℕ) (hpq : p * d + 100 ≤ q * d) :
    p * d / 100 < q * d / 100 := by
  have h1 : p * d / 100 + 1 = (p * d + 100) / 100 := by
    rw [Nat.add_div_right _ (by norm_num)]
  have h2 : (p * d + 100) / 100 ≤ q * d / 100 := Nat.div_le_div_right hpq
  omega

/-- Scaled coordinates stay within the image dimension. -/
theorem scale_le (p d : ℕ) (hp : p ≤ 100) : p * d / 100 ≤ d := by
  have h1 : p * d / 100 ≤ 100 * d / 100 :=
    Nat.div_le_div_right (Nat.mul_le_mul_right d hp)
  have h2 : 100 * d / 100 = d := Nat.mul_div_cancel_left d (by norm_num)
  omega

/-- C5 (amended). `get_lead_boxes` always returns exactly 12 regions with 12
distinct lead names; every region lies within the image bounds
`[0, w] x [0, h]`; and every region has positive area whenever `w ≥ 4` and
`h ≥ 6`. (The source rejects nothing: degenerate dimensions flow through and
merely produce zero-area boxes, see the counterexample.) -/
theorem get_lead_boxes_spec (w h : ℕ) (hw : 4 ≤ w) (hh : 6 ≤ h) :
    (get_lead_boxes w h).length = 12 ∧
    ((get_lead_boxes w h).map Prod.fst).Nodup ∧
    ∀ l b, (l, b) ∈ get_lead_boxes w h →
      b.x1 < b.x2 ∧ b.y1 < b.y2 ∧ b.x2 ≤ w ∧ b.y2 ≤ h := by
  have hfst : (get_lead_boxes w h).map Prod.fst = leadOrder := by
    simp [get_lead_boxes, List.map_map, Function.comp_def]
  refine ⟨rfl, by rw [hfst]; decide, ?_⟩
  intro l b hp
  rw [get_lead_boxes] at hp
  obtain ⟨l0, hl0, heq⟩ := List.mem_map.mp hp
  obtain ⟨rfl, rfl⟩ := Prod.mk.injEq .. |>.mp heq
  cases l0 <;> dsimp only [leadBoxPct, scaleBox] <;>
    exact ⟨scale_lt _ _ _ (by omega), scale_lt _ _ _ (by omega),
      scale_le _ _ (by omega), scale_le _ _ (by omega)⟩

/-- Witness for `get_lead_boxes_spec` at a concrete 400 x 300 image. -/
theorem get_lead_boxes_spec_witness :
    (get_lead_boxes 400 300).length = 12 ∧
    ((get_lead_boxes 400 300).map Prod.fst).Nodup ∧
    ∀ l b, (l, b) ∈ get_lead_boxes 400 300 →
      b.x1 < b.x2 ∧ b.y1 < b.y2 ∧ b.x2 ≤ 400 ∧ b.y2 ≤ 300 :=
  get_lead_boxes_spec 400 300 (by decide) (by decide)

/-- C5 counterexample to the claim as stated: degenerate (zero-area) input
dimensions are not rejected. At width 0 and height 0 the function still
returns 12 boxes, and the first one (lead I) has collapsed to the zero-area
rectangle, so the regions are not all non-empty either. -/
theorem get_lead_boxes_degenerate_counterexample :
    (get_lead_boxes 0 0).length = 12 ∧
    (get_lead_boxes 0 0).head? = some (Lead.I, ⟨0, 0, 0, 0⟩) := by decide

/-! ### Grid cropper (`RealWorldECGAnalyzer.crop_ecg_grid`) -/

/-- One contour as the cropper reads it: its `cv2.contourArea` and its
`cv2.boundingRect` fields `(x, y, bw, bh)`. -/
structure Contour where
  area : ℚ
  x : ℕ
  y : ℕ
  bw : ℕ
  bh : ℕ
  deriving Repr

/-- Python `max(contours, key=cv2.contourArea)`: the first contour of
maximal area (Python `max` keeps the earliest maximal element). -/
def maxByArea (c : Contour) (cs : List Contour) : Contour :=
  cs.foldl (fun best d => if best.area < d.area then d else best) c

/-- `RealWorldECGAnalyzer.crop_ecg_grid`, with the image represented by its
width and height and the result of `cv2.findContours` passed explicitly.
The result box is the argument of `image.crop`, which is also returned by
the source as the bounding box, so the pair `(cropped_image, bbox)` is
determined by this box. Default arguments are `bottom_cut = 0.78` and a
padding share of `0.02`; `int(h * 0.78)` is modelled as `78 * h / 100`,
`int(bw * 0.02)` as `2 * bw / 100`, and `int(bh * 1.3)` as `13 * bh / 10`.
`max(0, x - pad_x)` coincides with truncated subtraction on `ℕ`. -/
def crop_ecg_grid (w h : ℕ) (contours : List Contour) : Box :=
  match contours with
  | [] => ⟨0, 0, w, 78 * h / 100⟩
  | c :: cs =>
    let largest := maxByArea c cs
    let padX := 2 * largest.bw / 100
    let padY := 2 * largest.bh / 100
    let x := largest.x - padX
    let y := largest.y - padY
    let x2 := min w (x + largest.bw + 2 * padX)
    let y2 := min h (y + 13 * largest.bh / 10)
    ⟨x, y, x2, y2⟩

/-- C8. When contour detection finds no contours, `crop_ecg_grid` does not
fail: it returns the fixed-ratio fallback crop `(0, 0, w, int(h * 0.78))`,
which spans the full width, keeps the top portion of the image, and stays
within the image bounds. -/
theorem crop_ecg_grid_no_contour_fallback (w h : ℕ) :
    crop_ecg_grid w h [] = ⟨0, 0, w, 78 * h / 100⟩ ∧
    (crop_ecg_grid w h []).x2 = w ∧ (crop_ecg_grid w h []).y2 ≤ h := by
  refine ⟨rfl, rfl, ?_⟩
  show 78 * h / 100 ≤ h
  exact scale_le 78 h (by omega)

/-! ### Saliency maps and per-lead scores (`MultiMethodInterpreter.compute_lead_scores`) -/

/-- A saliency map resized to the image resolution: a grid of rationals,
row-major. -/
abbrev Mat := List (List ℚ)

/-- All entries of a map, row-major. -/
def entries (m : Mat) : List ℚ := m.flatten

/-- numpy `.max()` over the entries (0 on an empty map, where numpy would
raise; the maps fed in are non-empty). -/
def matMax (m : Mat) : ℚ :=
  match entries m with
  | [] => 0
  | v :: vs => vs.foldl max v

/-- numpy `.min()` over the entries. -/
def matMin (m : Mat) : ℚ :=
  match entries m with
  | [] => 0
  | v :: vs => vs.foldl min v

/-- The min-max normalization step of `compute_lead_scores`: performed only
when `max > min`, otherwise the map is returned unchanged. -/
def normalizeMap (m : Mat) : Mat :=
  if matMin m < matMax m then
    m.map fun row => row.map fun v => (v - matMin m) / (matMax m - matMin m)
  else m

/-- numpy slice `m[y1:y2, x1:x2]`. -/
def region (m : Mat) (b : Box) : Mat :=
  ((m.drop b.y1).take (b.y2 - b.y1)).map fun row => (row.drop b.x1).take (b.x2 - b.x1)

/-- `float(np.mean(r)) if r.size > 0 else 0`. -/
def regionMean (m : Mat) : ℚ :=
  if (entries m).length = 0 then 0 else (entries m).sum / (entries m).length

/-- The two per-method scores attached to one lead by
`compute_lead_scores`. -/
structure LeadScore where
  attention_score : ℚ
  gradient_score : ℚ
  deriving DecidableEq, Repr

/-- `MultiMethodInterpreter.compute_lead_scores` after the `cv2.resize`
step: takes the two maps already resized to the image size, normalizes each
unless its maximum equals its minimum, and averages each over every lead
box (0 for an empty region). The association list keeps the key order of
`lead_boxes`. -/
def compute_lead_scores (attn_resized ig_resized : Mat)
    (lead_boxes : List (Lead × Box)) : List (Lead × LeadScore) :=
  let a := normalizeMap attn_resized
  let g := normalizeMap ig_resized
  lead_boxes.map fun p => (p.1, ⟨regionMean (region a p.2), regionMean (region g p.2)⟩)

/-- Every entry of a sliced region already occurs in the map. -/
theorem entries_region_subset (m : Mat) (b : Box) :
    entries (region m b) ⊆ entries m := by
  intro v hv
  simp only [entries, region, List.mem_flatten, List.mem_map] at hv ⊢
  obtain ⟨row', ⟨row, hrow, rfl⟩, hv⟩ := hv
  exact ⟨row, List.drop_subset _ _ (List.take_subset _ _ hrow),
    List.drop_subset _ _ (List.take_subset _ _ hv)⟩

/-- C3 (amended). When a resized map's maximum equals its minimum, the
normalization is skipped and the map passes through unchanged (it is not
forced to an all-zero map); consequently, if such a map is moreover
all-zero, every per-lead attention score averaged from it is 0. The
normalizing division is performed only under `min < max`, so division by
zero never occurs. -/
theorem compute_lead_scores_degenerate_spec (attn ig : Mat)
    (boxes : List (Lead × Box)) (hdeg : matMax attn = matMin attn)
    (hzero : ∀ v ∈ entries attn, v = 0) :
    normalizeMap attn = attn ∧
    ∀ p ∈ compute_lead_scores attn ig boxes, p.2.attention_score = 0 := by
  have hskip : normalizeMap attn = attn := by
    rw [normalizeMap, if_neg]
    rw [hdeg]
    exact lt_irrefl _
  refine ⟨hskip, ?_⟩
  intro p hp
  simp only [compute_lead_scores, List.mem_map] at hp
  obtain ⟨q, hq, rfl⟩ := hp
  show regionMean (region (normalizeMap attn) q.2) = 0
  rw [hskip, regionMean]
  split
  · rfl
  · rw [List.sum_eq_zero fun v hv => hzero v (entries_region_subset attn q.2 hv)]
    exact zero_div _

/-- Witness for `compute_lead_scores_degenerate_spec` on a concrete all-zero
2 x 2 map. -/
theorem compute_lead_scores_degenerate_witness :
    normalizeMap [[0, 0], [0, 0]] = [[0, 0], [0, 0]] ∧
    ∀ p ∈ compute_lead_scores [[0, 0], [0, 0]] [[0, 0], [0, 0]]
        [(Lead.I, ⟨0, 0, 2, 2⟩)], p.2.attention_score = 0 :=
  compute_lead_scores_degenerate_spec _ _ _ (by decide) (by decide)

/-- C3 counterexample to the claim as stated: a map whose maximum equals its
minimum is not short-circuited to an all-zero map - it passes through
unchanged - so the per-lead score averaged from the constant-1 map is 1,
not 0. -/
theorem compute_lead_scores_const_counterexample :
    matMax [[1, 1], [1, 1]] = matMin [[1, 1], [1, 1]] ∧
    compute_lead_scores [[1, 1], [1, 1]] [[0, 0], [0, 0]]
        [(Lead.I, ⟨0, 0, 2, 2⟩)] = [(Lead.I, ⟨1, 0⟩)] := by
  refine ⟨by decide, ?_⟩
  norm_num [compute_lead_scores, normalizeMap, matMax, matMin, entries, region,
    regionMean]

/-! ### Ablation study (`MultiMethodInterpreter.ablation_study`) -/

/-- Python `round(x, 1)`: x rounded to the nearest tenth. (The model rounds
halves up where CPython rounds them to even; no quantity in the claims sits
on an exact half.) -/
def round1 (q : ℚ) : ℚ := (round (10 * q) : ℤ) / 10

/-- The per-lead record assembled in the `ablation_study` loop. -/
structure AblationEntry where
  original_confidence : ℚ
  masked_confidence : ℚ
  confidence_drop : ℚ
  drop_percentage : ℚ
  deriving DecidableEq, Repr

/-- The record built for one lead by `ablation_study`, from the baseline
confidence and the masked forward pass's confidence for the target class:
`drop_percentage` is `(drop / baseline) * 100` guarded by `baseline > 0`,
and all four fields go through `round(x, 1)`. -/
def ablation_entry (baseline_conf masked_conf : ℚ) : AblationEntry :=
  let confidence_drop := baseline_conf - masked_conf
  let drop_percentage :=
    if 0 < baseline_conf then confidence_drop / baseline_conf * 100 else 0
  ⟨round1 (baseline_conf * 100), round1 (masked_conf * 100),
    round1 (confidence_drop * 100), round1 drop_percentage⟩

/-- `MultiMethodInterpreter.ablation_study`: one record per lead box, in key
order; the classifier's forward pass on the image with a given lead masked
enters as the oracle `maskedConf`. -/
def ablation_study (lead_boxes : List (Lead × Box)) (baseline_conf : ℚ)
    (maskedConf : Lead → ℚ) : List (Lead × AblationEntry) :=
  lead_boxes.map fun p => (p.1, ablation_entry baseline_conf (maskedConf p.1))

/-- Rounding to a tenth is monotone. -/
theorem round1_mono {a b : ℚ} (h : a ≤ b) : round1 a ≤ round1 b := by
  unfold round1
  have hr : round (10 * a) ≤ round (10 * b) := by
    rw [round_eq, round_eq]
    exact Int.floor_le_floor (by linarith)
  have hc : ((round (10 * a) : ℤ) : ℚ) ≤ ((round (10 * b) : ℤ) : ℚ) :=
    Int.cast_le.mpr hr
  linarith

/-- C6. Every record of an ablation study has `drop_percentage ≤ 100` (the
masked softmax confidence is non-negative, so the drop cannot exceed the
baseline itself), and `drop_percentage = 0` when the baseline confidence is
0: the division by the baseline only happens under the `baseline > 0`
guard. -/
theorem ablation_drop_bounded (lead_boxes : List (Lead × Box))
    (baseline_conf : ℚ) (maskedConf : Lead → ℚ)
    (hmask : ∀ l, 0 ≤ maskedConf l) :
    ∀ p ∈ ablation_study lead_boxes baseline_conf maskedConf,
      p.2.drop_percentage ≤ 100 ∧
      (baseline_conf = 0 → p.2.drop_percentage = 0) := by
  intro p hp
  simp only [ablation_study, List.mem_map] at hp
  obtain ⟨q, hq, rfl⟩ := hp
  dsimp only [ablation_entry]
  have h100 : round1 100 = 100 := by norm_num [round1, round_eq]
  have h0 : round1 0 = 0 := by norm_num [round1]
  constructor
  · split
    · rename_i hpos
      have hd : (baseline_conf - maskedConf q.1) / baseline_conf ≤ 1 :=
        (div_le_one hpos).mpr (by linarith [hmask q.1])
      have : (baseline_conf - maskedConf q.1) / baseline_conf * 100 ≤ 100 := by
        linarith
      calc round1 _ ≤ round1 100 := round1_mono this
        _ = 100 := h100
    · rw [h0]
      norm_num
  · intro hb
    rw [hb]
    simp only [lt_irrefl, if_false]
    exact h0

/-- Witness for `ablation_drop_bounded` on the concrete 400 x 300 geometry
with baseline confidence 1/2 and every masked confidence 1/4, read off at
the record of lead I. -/
theorem ablation_drop_bounded_witness :
    (ablation_entry (1 / 2) (1 / 4)).drop_percentage ≤ 100 ∧
    ((1 / 2 : ℚ) = 0 → (ablation_entry (1 / 2) (1 / 4)).drop_percentage = 0) := by
  have hmem : (Lead.I, ablation_entry (1 / 2) (1 / 4)) ∈
      ablation_study (get_lead_boxes 400 300) (1 / 2) (fun _ => 1 / 4) := by
    simp [ablation_study, get_lead_boxes, leadOrder]
  exact ablation_drop_bounded (get_lead_boxes 400 300) (1 / 2) (fun _ => 1 / 4)
    (fun _ => by norm_num) _ hmem

/-! ### Consensus engine (`MultiMethodInterpreter.calculate_consensus`) -/

/-- Python `sorted(keys, key=key, reverse=True)`: a stable descending sort,
modelled by the stable `List.mergeSort` under the reflexive descending
comparison on the key. -/
def sortDesc (l : List Lead) (key : Lead → ℚ) : List Lead :=
  l.mergeSort fun a b => decide (key b ≤ key a)

/-- The per-lead consensus dict entry: tier name, stars, and the three
1-based ranks. -/
structure ConsensusEntry where
  level : String
  stars : ℕ
  attn_rank : ℕ
  grad_rank : ℕ
  ablation_rank : ℕ
  deriving DecidableEq, Repr

/-- The overall consensus record returned as the second component. -/
structure OverallConsensus where
  score : ℚ
  level : String
  common_critical_leads : List Lead
  top_attention : List Lead
  top_gradient : List Lead
  top_ablation : List Lead
  deriving DecidableEq, Repr

/-- The loop body of `calculate_consensus`: ranks via `list.index`, top-3 /
top-5 membership counts, and the first-match tier cascade. -/
def consensusEntry (attn_ranked grad_ranked ablation_ranked : List Lead)
    (lead : Lead) : ConsensusEntry :=
  let attn_rank := attn_ranked.indexOf lead
  let grad_rank := grad_ranked.indexOf lead
  let ablation_rank := ablation_ranked.indexOf lead
  let in_top_3 := (if attn_rank < 3 then 1 else 0) + (if grad_rank < 3 then 1 else 0)
    + (if ablation_rank < 3 then 1 else 0)
  let in_top_5 := (if attn_rank < 5 then 1 else 0) + (if grad_rank < 5 then 1 else 0)
    + (if ablation_rank < 5 then 1 else 0)
  let ls : String × ℕ :=
    if in_top_3 = 3 then ("critical", 3)
    else if 2 ≤ in_top_3 then ("important", 2)
    else if 2 ≤ in_top_5 then ("moderate", 1)
    else ("minor", 0)
  ⟨ls.1, ls.2, attn_rank + 1, grad_rank + 1, ablation_rank + 1⟩

/-- The tail of `calculate_consensus`: the three top-3 sets, their common
part and pairwise overlaps (the Python `set` intersections, modelled on the
duplicate-free ranking lists by filtering), the capped score, and the level
cascade. The stored score passes through `round(x, 1)`. -/
def overallConsensus (attn_ranked grad_ranked ablation_ranked : List Lead) :
    OverallConsensus :=
  let top_3_attn := attn_ranked.take 3
  let top_3_grad := grad_ranked.take 3
  let top_3_ablation := ablation_ranked.take 3
  let common_top_3 :=
    top_3_attn.filter fun l => top_3_grad.contains l && top_3_ablation.contains l
  let pairwise_agreement := (top_3_attn.filter fun l => top_3_grad.contains l).length
    + (top_3_grad.filter fun l => top_3_ablation.contains l).length
    + (top_3_attn.filter fun l => top_3_ablation.contains l).length
  let overall_score : ℚ :=
    min 100 ((common_top_3.length : ℚ) * 33.3 + (pairwise_agreement : ℚ) * 5)
  let overall_level :=
    if 2 ≤ common_top_3.length then "HIGH"
    else if 1 ≤ common_top_3.length ∨ 4 ≤ pairwise_agreement then "MODERATE"
    else "LOW"
  ⟨round1 overall_score, overall_level, common_top_3,
    top_3_attn, top_3_grad, top_3_ablation⟩

/-- `MultiMethodInterpreter.calculate_consensus`: sorts the score keys per
method (descending, stable), builds one `ConsensusEntry` per lead of
`lead_scores` and the `OverallConsensus`. `leads` are the keys of
`lead_scores` and `ablLeads` the keys of `ablation_results` (identical and
in box order in the calling program). -/
def calculate_consensus (leads : List Lead) (attn grad : Lead → ℚ)
    (ablLeads : List Lead) (abl : Lead → ℚ) :
    List (Lead × ConsensusEntry) × OverallConsensus :=
  let attn_ranked := sortDesc leads attn
  let grad_ranked := sortDesc leads grad
  let ablation_ranked := sortDesc ablLeads abl
  (leads.map fun lead => (lead, consensusEntry attn_ranked grad_ranked ablation_ranked lead),
    overallConsensus attn_ranked grad_ranked ablation_ranked)

theorem sortDesc_perm (l : List Lead) (key : Lead → ℚ) :
    (sortDesc l key).Perm l :=
  List.mergeSort_perm l _

theorem sortDesc_mem (l : List Lead) (key : Lead → ℚ) (a : Lead) :
    a ∈ sortDesc l key ↔ a ∈ l :=
  (sortDesc_perm l key).mem_iff

/-- Stability of the descending sort: two leads with equal keys keep their
relative input order. -/
theorem sortDesc_stable (l : List Lead) (key : Lead → ℚ) {a b : Lead}
    (hk : key a = key b) (h : List.Sublist [a, b] l) :
    List.Sublist [a, b] (sortDesc l key) :=
  List.pair_sublist_mergeSort
    (fun x y z hxy hyz => by
      simp only [decide_eq_true_eq] at hxy hyz ⊢
      exact le_trans hyz hxy)
    (fun x y => by
      simp only [Bool.or_eq_true, decide_eq_true_eq]
      exact le_total (key y) (key x))
    (by simp [hk]) h

/-- `list.index` against list slicing: for a present element, its 0-based
index is below `k` exactly when it occurs among the first `k` entries. -/
theorem indexOf_lt_iff_mem_take {α : Type} [DecidableEq α] (l : List α)
    {a : α} (ha : a ∈ l) (k : ℕ) : l.indexOf a < k ↔ a ∈ l.take k := by
  induction l generalizing k with
  | nil => cases ha
  | cons b t ih =>
    by_cases hab : a = b
    · subst hab
      cases k with
      | zero => simp
      | succ n => simp [List.indexOf_cons_self]
    · have ha' : a ∈ t := by
        rcases List.mem_cons.mp ha with h | h
        · exact absurd h hab
        · exact h
      rw [List.indexOf_cons_ne _ (fun h => hab h.symm)]
      cases k with
      | zero => simp
      | succ n =>
        rw [List.take_succ_cons, List.mem_cons]
        simp only [hab, false_or]
        rw [← ih ha' n]
        omega

/-- C9. The three method rankings of `calculate_consensus` over the 12-lead
enumeration are stable descending sorts of the score keys: each is a
permutation of exactly the 12 lead names with no duplicates, two leads with
equal scores keep their original enumeration order, and the overall record
exposes the first three entries of each ranking. Determinism is structural:
the rankings are functions of the scores alone. -/
theorem method_rankings_spec (attnKey gradKey ablKey : Lead → ℚ) :
    ((sortDesc leadOrder attnKey).Perm leadOrder ∧
      (sortDesc leadOrder attnKey).length = 12 ∧
      (sortDesc leadOrder attnKey).Nodup) ∧
    (∀ a b : Lead, List.Sublist [a, b] leadOrder → attnKey a = attnKey b →
      List.Sublist [a, b] (sortDesc leadOrder attnKey)) ∧
    (calculate_consensus leadOrder attnKey gradKey leadOrder ablKey).2.top_attention
        = (sortDesc leadOrder attnKey).take 3 ∧
    (calculate_consensus leadOrder attnKey gradKey leadOrder ablKey).2.top_gradient
        = (sortDesc leadOrder gradKey).take 3 ∧
    (calculate_consensus leadOrder attnKey gradKey leadOrder ablKey).2.top_ablation
        = (sortDesc leadOrder ablKey).take 3 := by
  refine ⟨⟨sortDesc_perm _ _, ?_, ?_⟩, ?_, rfl, rfl, rfl⟩
  · rw [(sortDesc_perm _ _).length_eq]
    rfl
  · exact (sortDesc_perm _ _).nodup_iff.mpr (by decide)
  · intro a b hsub hk
    exact sortDesc_stable _ _ hk hsub

/-- Witness for `method_rankings_spec` at constant scores, instantiating the
stability conjunct at the tied pair (I, aVR). -/
theorem method_rankings_spec_witness :
    List.Sublist [Lead.I, Lead.aVR] (sortDesc leadOrder fun _ => (0 : ℚ)) ∧
    (sortDesc leadOrder fun _ => (0 : ℚ)).length = 12 :=
  ⟨(method_rankings_spec (fun _ => 0) (fun _ => 0) (fun _ => 0)).2.1 Lead.I Lead.aVR
      (by decide) rfl,
    (method_rankings_spec (fun _ => 0) (fun _ => 0) (fun _ => 0)).1.2.1⟩

/-- The number of the three method rankings that place `lead` within their
first `k` entries, as the claim words it. -/
def inTopCount (k : ℕ) (lead : Lead) (r1 r2 r3 : List Lead) : ℕ :=
  (if lead ∈ r1.take k then 1 else 0) + (if lead ∈ r2.take k then 1 else 0)
    + (if lead ∈ r3.take k then 1 else 0)

/-- C1. Every consensus entry's tier and stars follow the first-match
cascade on the top-3 / top-5 membership counts of the three rankings:
critical with 3 stars when all three rankings place the lead in their top
3, important with 2 stars when at least two do, moderate with 1 star when
at least two place it in their top 5, else minor with 0 stars. In
particular a lead of rank 1 in all three rankings is critical with 3 stars,
and one of rank 9 in all three is minor with 0 stars. -/
theorem consensus_tier_spec (leads ablLeads : List Lead)
    (attn grad abl : Lead → ℚ) (lead : Lead) (e : ConsensusEntry)
    (hmem : (lead, e) ∈ (calculate_consensus leads attn grad ablLeads abl).1)
    (habl : lead ∈ ablLeads) :
    ((e.level, e.stars) =
      (if inTopCount 3 lead (sortDesc leads attn) (sortDesc leads grad)
          (sortDesc ablLeads abl) = 3 then ("critical", 3)
       else if 2 ≤ inTopCount 3 lead (sortDesc leads attn) (sortDesc leads grad)
          (sortDesc ablLeads abl) then ("important", 2)
       else if 2 ≤ inTopCount 5 lead (sortDesc leads attn) (sortDesc leads grad)
          (sortDesc ablLeads abl) then ("moderate", 1)
       else ("minor", 0))) ∧
    (e.attn_rank = 1 ∧ e.grad_rank = 1 ∧ e.ablation_rank = 1 →
      e.level = "critical" ∧ e.stars = 3) ∧
    (e.attn_rank = 9 ∧ e.grad_rank = 9 ∧ e.ablation_rank = 9 →
      e.level = "minor" ∧ e.stars = 0) := by
  simp only [calculate_consensus, List.mem_map] at hmem
  obtain ⟨l0, hl0, heq⟩ := hmem
  rw [Prod.mk.injEq] at heq
  obtain ⟨rfl, rfl⟩ := heq.imp id Eq.symm
  have hA : l0 ∈ sortDesc leads attn := (sortDesc_mem _ _ _).mpr hl0
  have hG : l0 ∈ sortDesc leads grad := (sortDesc_mem _ _ _).mpr hl0
  have hB : l0 ∈ sortDesc ablLeads abl := (sortDesc_mem _ _ _).mpr habl
  refine ⟨?_, ?_, ?_⟩
  · dsimp only [consensusEntry]
    simp only [inTopCount, indexOf_lt_iff_mem_take _ hA, indexOf_lt_iff_mem_take _ hG,
      indexOf_lt_iff_mem_take _ hB]
  · dsimp only [consensusEntry]
    intro ⟨h1, h2, h3⟩
    have e1 : (sortDesc leads attn).indexOf l0 = 0 := by omega
    have e2 : (sortDesc leads grad).indexOf l0 = 0 := by omega
    have e3 : (sortDesc ablLeads abl).indexOf l0 = 0 := by omega
    simp [e1, e2, e3]
  · dsimp only [consensusEntry]
    intro ⟨h1, h2, h3⟩
    have e1 : (sortDesc leads attn).indexOf l0 = 8 := by omega
    have e2 : (sortDesc leads grad).indexOf l0 = 8 := by omega
    have e3 : (sortDesc ablLeads abl).indexOf l0 = 8 := by omega
    simp [e1, e2, e3]

/-- A strictly decreasing concrete score along the lead enumeration, used by
the witnesses. -/
def enumScore (l : Lead) : ℚ := ((12 - leadOrder.indexOf l : ℕ) : ℚ)

/-- Under `enumScore` the enumeration is already descending, so the stable
sort leaves it unchanged. -/
theorem sortDesc_enumScore : sortDesc leadOrder enumScore = leadOrder :=
  List.mergeSort_of_sorted (by decide)

/-- Witness for `consensus_tier_spec`: under `enumScore` all three rankings
equal the enumeration, lead I carries rank 1 in all three, and its entry is
critical with 3 stars. -/
theorem consensus_tier_spec_witness :
    (Lead.I, (⟨"critical", 3, 1, 1, 1⟩ : ConsensusEntry)) ∈
      (calculate_consensus leadOrder enumScore enumScore leadOrder enumScore).1 ∧
    Lead.I ∈ leadOrder ∧
    ((⟨"critical", 3, 1, 1, 1⟩ : ConsensusEntry).attn_rank = 1 ∧
      (⟨"critical", 3, 1, 1, 1⟩ : ConsensusEntry).grad_rank = 1 ∧
      (⟨"critical", 3, 1, 1, 1⟩ : ConsensusEntry).ablation_rank = 1 →
     (⟨"critical", 3, 1, 1, 1⟩ : ConsensusEntry).level = "critical" ∧
      (⟨"critical", 3, 1, 1, 1⟩ : ConsensusEntry).stars = 3) := by
  have hmem : (Lead.I, (⟨"critical", 3, 1, 1, 1⟩ : ConsensusEntry)) ∈
      (calculate_consensus leadOrder enumScore enumScore leadOrder enumScore).1 := by
    simp only [calculate_consensus, sortDesc_enumScore]
    decide
  exact ⟨hmem, by decide,
    (consensus_tier_spec leadOrder leadOrder enumScore enumScore enumScore Lead.I _
      hmem (by decide)).2.1⟩

/-- The set of leads present in all three methods' top-3 sets, as the claim
words it, computed on the duplicate-free top-3 lists. -/
def specCommon (A3 G3 B3 : List Lead) : List Lead :=
  A3.filter fun l => G3.contains l && B3.contains l

/-- The sum of the sizes of the three pairwise top-3 intersections. -/
def specPairwise (A3 G3 B3 : List Lead) : ℕ :=
  (A3.filter fun l => G3.contains l).length
    + (G3.filter fun l => B3.contains l).length
    + (A3.filter fun l => B3.contains l).length

/-- The capped score is a whole number of tenths, so `round(x, 1)` leaves
it unchanged. -/
theorem round1_min_score (c p : ℕ) :
    round1 (min 100 ((c : ℚ) * 33.3 + (p : ℚ) * 5)) =
      min 100 ((c : ℚ) * 33.3 + (p : ℚ) * 5) := by
  have h : (c : ℚ) * 33.3 + (p : ℚ) * 5 = ((333 * c + 50 * p : ℕ) : ℚ) / 10 := by
    push_cast
    ring
  rw [h]
  rcases le_total (100 : ℚ) (((333 * c + 50 * p : ℕ) : ℚ) / 10) with hle | hle
  · rw [min_eq_left hle]
    norm_num [round1, round_eq]
  · rw [min_eq_right hle]
    unfold round1
    rw [show (10 : ℚ) * (((333 * c + 50 * p : ℕ) : ℚ) / 10)
        = ((333 * c + 50 * p : ℕ) : ℚ) by ring]
    rw [round_natCast]
    push_cast
    ring

/-- C2. The overall consensus: with `common` the leads present in all three
top-3 sets and `pairwise` the sum of the pairwise top-3 intersection sizes,
the stored score equals `min(100, |common| * 33.3 + pairwise * 5)` and the
level is HIGH when `|common| ≥ 2`, else MODERATE when `|common| ≥ 1` or
`pairwise ≥ 4`, else LOW. Consequently the score is 0 when both quantities
vanish, and 100 when the three top-3 sets are identical. -/
theorem consensus_overall_spec (leads ablLeads : List Lead)
    (attn grad abl : Lead → ℚ) (hll : 3 ≤ leads.length) :
    (let A3 := (sortDesc leads attn).take 3
     let G3 := (sortDesc leads grad).take 3
     let B3 := (sortDesc ablLeads abl).take 3
     let common := specCommon A3 G3 B3
     let pw := specPairwise A3 G3 B3
     let ov := (calculate_consensus leads attn grad ablLeads abl).2
     ov.score = min 100 ((common.length : ℚ) * 33.3 + (pw : ℚ) * 5) ∧
     ov.level = (if 2 ≤ common.length then "HIGH"
       else if 1 ≤ common.length ∨ 4 ≤ pw then "MODERATE" else "LOW") ∧
     (common.length = 0 ∧ pw = 0 → ov.score = 0) ∧
     ((∀ x, x ∈ A3 ↔ x ∈ G3) → (∀ x, x ∈ G3 ↔ x ∈ B3) → ov.score = 100)) := by
  set A3 := (sortDesc leads attn).take 3 with hA3
  set G3 := (sortDesc leads grad).take 3 with hG3
  set B3 := (sortDesc ablLeads abl).take 3 with hB3
  refine ⟨round1_min_score _ _, rfl, ?_, ?_⟩
  · intro h
    show round1 (min 100 (((specCommon A3 G3 B3).length : ℚ) * 33.3
      + ((specPairwise A3 G3 B3 : ℕ) : ℚ) * 5)) = 0
    rw [h.1, h.2]
    norm_num [round1]
  · intro hag hgb
    have hA3len : A3.length = 3 := by
      rw [hA3, List.length_take, (sortDesc_perm leads attn).length_eq]
      omega
    have hG3len : G3.length = 3 := by
      rw [hG3, List.length_take, (sortDesc_perm leads grad).length_eq]
      omega
    have hcommon : specCommon A3 G3 B3 = A3 := by
      rw [specCommon, List.filter_eq_self]
      intro x hx
      rw [Bool.and_eq_true]
      exact ⟨List.elem_eq_true_of_mem ((hag x).mp hx),
        List.elem_eq_true_of_mem ((hgb x).mp ((hag x).mp hx))⟩
    have hpw : specPairwise A3 G3 B3 = 9 := by
      rw [specPairwise]
      rw [List.filter_eq_self.mpr fun x hx => List.elem_eq_true_of_mem ((hag x).mp hx)]
      rw [List.filter_eq_self.mpr fun x hx => List.elem_eq_true_of_mem ((hgb x).mp hx)]
      rw [List.filter_eq_self.mpr
        fun x hx => List.elem_eq_true_of_mem ((hgb x).mp ((hag x).mp hx))]
      omega
    show round1 (min 100 (((specCommon A3 G3 B3).length : ℚ) * 33.3
      + ((specPairwise A3 G3 B3 : ℕ) : ℚ) * 5)) = 100
    rw [hcommon, hpw, hA3len]
    norm_num [round1, round_eq]

/-- Witness for `consensus_overall_spec` at the 12-lead enumeration with the
concrete `enumScore` keys. -/
theorem consensus_overall_spec_witness :
    3 ≤ leadOrder.length ∧
    (let A3 := (sortDesc leadOrder enumScore).take 3
     let G3 := (sortDesc leadOrder enumScore).take 3
     let B3 := (sortDesc leadOrder enumScore).take 3
     let common := specCommon A3 G3 B3
     let pw := specPairwise A3 G3 B3
     let ov := (calculate_consensus leadOrder enumScore enumScore leadOrder enumScore).2
     ov.score = min 100 ((common.length : ℚ) * 33.3 + (pw : ℚ) * 5) ∧
     ov.level = (if 2 ≤ common.length then "HIGH"
       else if 1 ≤ common.length ∨ 4 ≤ pw then "MODERATE" else "LOW") ∧
     (common.length = 0 ∧ pw = 0 → ov.score = 0) ∧
     ((∀ x, x ∈ A3 ↔ x ∈ G3) → (∀ x, x ∈ G3 ↔ x ∈ B3) → ov.score = 100)) :=
  ⟨by decide,
    consensus_overall_spec leadOrder leadOrder enumScore enumScore enumScore (by decide)⟩

/-- C7 (amended). Degenerate geometry does not crash the pipeline: every
function involved is total, a lead box collapsed to zero width or height
contributes a region of size 0 and hence a per-lead score of 0 through the
empty-region guard, a consensus over zero leads has no entries, score 0 and
level LOW, and every lead of any computation still receives an entry. There
is no whole-image fallback, and ties do not produce the all-minor / LOW
outcome the claim describes: see the counterexample, where every score ties
and the first three enumeration leads come out critical with level HIGH. -/
theorem consensus_degenerate_spec (m : Mat) (b : Box)
    (attn grad abl : Lead → ℚ) (leads : List Lead)
    (hb : b.x2 ≤ b.x1 ∨ b.y2 ≤ b.y1) :
    regionMean (region m b) = 0 ∧
    (calculate_consensus [] attn grad [] abl).1 = [] ∧
    (calculate_consensus [] attn grad [] abl).2.score = 0 ∧
    (calculate_consensus [] attn grad [] abl).2.level = "LOW" ∧
    ((calculate_consensus leads attn grad leads abl).1).length = leads.length := by
  refine ⟨?_, ?_, ?_, ?_, ?_⟩
  · have hreg : entries (region m b) = [] := by
      rcases hb with h | h
      · have hx : b.x2 - b.x1 = 0 := by omega
        simp [entries, region, hx, List.flatten_eq_nil_iff]
      · have hy : b.y2 - b.y1 = 0 := by omega
        simp [entries, region, hy]
    rw [regionMean, hreg]
    norm_num
  · simp [calculate_consensus, sortDesc]
  · show round1 (min 100 _) = 0
    norm_num [calculate_consensus, overallConsensus, sortDesc, round1]
  · simp [calculate_consensus, overallConsensus, sortDesc]
  · simp [calculate_consensus]

/-- Witness for `consensus_degenerate_spec` at a concrete zero-width box on
a 2 x 2 map and the 12-lead enumeration. -/
theorem consensus_degenerate_spec_witness :
    ((⟨2, 0, 2, 2⟩ : Box).x2 ≤ (⟨2, 0, 2, 2⟩ : Box).x1 ∨
      (⟨2, 0, 2, 2⟩ : Box).y2 ≤ (⟨2, 0, 2, 2⟩ : Box).y1) ∧
    (regionMean (region [[1, 2], [3, 4]] ⟨2, 0, 2, 2⟩) = 0 ∧
     (calculate_consensus [] (fun _ => 0) (fun _ => 0) [] (fun _ => 0)).1 = [] ∧
     (calculate_consensus [] (fun _ => 0) (fun _ => 0) [] (fun _ => 0)).2.score = 0 ∧
     (calculate_consensus [] (fun _ => 0) (fun _ => 0) [] (fun _ => 0)).2.level = "LOW" ∧
     ((calculate_consensus leadOrder (fun _ => 0) (fun _ => 0) leadOrder
        (fun _ => 0)).1).length = leadOrder.length) :=
  ⟨Or.inl (by decide),
    consensus_degenerate_spec [[1, 2], [3, 4]] ⟨2, 0, 2, 2⟩ _ _ _ leadOrder
      (Or.inl (by decide))⟩

/-- C7 counterexample to the claim as stated: with every per-lead score tied
(all-zero scores for all three methods over the 12 leads, as produced by
fully degenerate geometry), the leads are NOT all tiered minor with a LOW
consensus level; the stable sort leaves the tied enumeration in place, lead
I receives the entry critical with 3 stars, and the overall level is
HIGH. -/
theorem consensus_degenerate_counterexample :
    (calculate_consensus leadOrder (fun _ => 0) (fun _ => 0) leadOrder
        (fun _ => 0)).1.head? = some (Lead.I, ⟨"critical", 3, 1, 1, 1⟩) ∧
    (calculate_consensus leadOrder (fun _ => 0) (fun _ => 0) leadOrder
        (fun _ => 0)).2.level = "HIGH" := by
  have hs : sortDesc leadOrder (fun _ => (0 : ℚ)) = leadOrder :=
    List.mergeSort_of_sorted (by decide)
  constructor
  · simp only [calculate_consensus, hs]
    decide
  · simp only [calculate_consensus, overallConsensus, hs]
    decide

/-! ### Interpretation builder (`ECGPredictor._build_interpretation`) -/

/-- First-occurrence deduplication over an accumulator of elements already
seen. -/
def dedupFirstAux : List String → List String → List String
  | [], _ => []
  | x :: t, seen =>
    if seen.contains x then dedupFirstAux t seen
    else x :: dedupFirstAux t (x :: seen)

/-- Python `list(set(xs))`, determinized to first-occurrence order. CPython
iterates a set of small strings in (randomized) hash order, so the real
order is not even reproducible across processes; under any fixed order the
result discards multiplicities, which is what the theorems below use. -/
def pySetList (xs : List String) : List String := dedupFirstAux xs []

/-- The key leads of `_build_interpretation`: the critical leads followed by
at most two important ones; when none qualify, the three leads of highest
attention score (stable descending sort over the enumeration order of
`lead_analysis`). -/
def build_key_leads (critical important : List Lead) (attnScore : Lead → ℚ) :
    List Lead :=
  let all := critical ++ important.take 2
  if all.isEmpty then (sortDesc leadOrder attnScore).take 3 else all

/-- The `primary_territory` of `_build_interpretation`:
`list(set(territories))[0]` over the first three key leads, with fallback
`unknown` when there are no key leads. -/
def primary_territory (key_leads : List Lead) : String :=
  (pySetList ((key_leads.take 3).map territory)).headD "unknown"

/-- The `clinical_correlation` sentence built per predicted class. -/
def clinical_correlation (predicted : String) (key_leads : List Lead) : String :=
  if predicted == "MI_Patient" then
    "Pattern localizes to " ++ primary_territory key_leads ++ " territory."
  else if predicted == "MI_History" then
    "Old infarction pattern in " ++ primary_territory key_leads ++ " territory."
  else "Normal sinus rhythm without ischemic changes."

/-- Number of occurrences of a territory in a list. -/
def countOcc (ts : List String) (t : String) : ℕ :=
  (ts.filter fun x => x == t).length

/-- The dominant territory as the claim words it: majority vote over the
key leads' territories, ties broken by the first territory encountered. -/
def majorityTerritory (ts : List String) : String :=
  match pySetList ts with
  | [] => "unknown"
  | c :: cs =>
    cs.foldl (fun best t => if countOcc ts best < countOcc ts t then t else best) c

/-- C4 (amended). The `clinical_correlation` sentence names
`list(set(territories))[0]`: under the first-occurrence determinization of
the set order this is the first territory among the first three key leads'
territories - in particular it is some key lead's territory whenever key
leads exist - but it is chosen with no regard to multiplicity, so no
majority vote happens (see the counterexample). -/
theorem clinical_correlation_spec (key_leads : List Lead) (h : key_leads ≠ []) :
    primary_territory key_leads ∈ (key_leads.take 3).map territory ∧
    clinical_correlation "MI_Patient" key_leads =
      "Pattern localizes to " ++ primary_territory key_leads ++ " territory." := by
  obtain ⟨k, t, rfl⟩ := List.exists_cons_of_ne_nil h
  refine ⟨?_, rfl⟩
  rw [show (3 : ℕ) = 2 + 1 from rfl, List.take_succ_cons, List.map_cons]
  rw [show primary_territory (k :: t) =
    (pySetList (territory k :: (t.take 2).map territory)).headD "unknown" from rfl]
  rw [show pySetList (territory k :: (t.take 2).map territory) =
    territory k :: dedupFirstAux ((t.take 2).map territory) [territory k] from by
      simp [pySetList, dedupFirstAux]]
  exact List.mem_cons_self _ _

/-- Witness for `clinical_correlation_spec` at the key leads I, II, III. -/
theorem clinical_correlation_spec_witness :
    ([Lead.I, Lead.II, Lead.III] ≠ ([] : List Lead)) ∧
    (primary_territory [Lead.I, Lead.II, Lead.III] ∈
      ([Lead.I, Lead.II, Lead.III].take 3).map territory ∧
     clinical_correlation "MI_Patient" [Lead.I, Lead.II, Lead.III] =
      "Pattern localizes to "
        ++ primary_territory [Lead.I, Lead.II, Lead.III] ++ " territory.") :=
  ⟨by decide, clinical_correlation_spec [Lead.I, Lead.II, Lead.III] (by decide)⟩

/-- C4 counterexample to the claim as stated: for the key leads I, II, III
the territories are lateral, inferior, inferior, whose majority (ties to
the first encountered) is inferior; but the code's sentence names the
set-order head lateral - `set` discards multiplicities - so the sentence
does not name the dominant territory. -/
theorem clinical_correlation_counterexample :
    majorityTerritory ([Lead.I, Lead.II, Lead.III].map territory) = "inferior" ∧
    primary_territory [Lead.I, Lead.II, Lead.III] = "lateral" ∧
    clinical_correlation "MI_Patient" [Lead.I, Lead.II, Lead.III] ≠
      "Pattern localizes to inferior territory." := by
  refine ⟨?_, ?_, ?_⟩ <;> decide

/-! ### Prediction remapping (`ECGPredictor._remap_prediction`) -/

/-- `ECGPredictor.CLASS_NAMES`: the three public class names. -/
def CLASS_NAMES : List String := ["MI_History", "MI_Patient", "Normal"]

/-- The scanning loop of `torch.argmax`: keeps the first maximal entry. -/
def torch_argmax_aux (bi : ℕ) (bv : ℚ) (i : ℕ) : List ℚ → ℕ
  | [] => bi
  | v :: t =>
    if bv < v then torch_argmax_aux i v (i + 1) t
    else torch_argmax_aux bi bv (i + 1) t

/-- `torch.argmax` over a probability vector: the index of the first
maximal entry (0 on an empty vector). -/
def torch_argmax : List ℚ → ℕ
  | [] => 0
  | v :: t => torch_argmax_aux 0 v 1 t

/-- `ECGPredictor._remap_prediction(old_idx, probs)`: the model artifact has
4 training classes and index 0 is dropped; when the argmax is 0 the best of
indices 1 - 3 wins, otherwise the name index shifts down by one. Returns
(class name, confidence, old index). -/
def _remap_prediction (old_idx : ℕ) (probs : List ℚ) : String × ℚ × ℕ :=
  if old_idx = 0 then
    let valid_probs := [probs.getD 1 0, probs.getD 2 0, probs.getD 3 0]
    let new_idx := torch_argmax valid_probs
    (CLASS_NAMES.getD new_idx "", valid_probs.getD new_idx 0, old_idx)
  else (CLASS_NAMES.getD (old_idx - 1) "", probs.getD old_idx 0, old_idx)

/-- The diagnosis selection inside `ECGPredictor.predict`: argmax of the
softmax vector, then remap. -/
def predict_diagnosis (probs : List ℚ) : String × ℚ × ℕ :=
  _remap_prediction (torch_argmax probs) probs

/-- The first-maximum scan over three entries lands on the maximum value. -/
theorem getD_torch_argmax_three (a b c : ℚ) :
    [a, b, c].getD (torch_argmax [a, b, c]) 0 = max a (max b c) := by
  rcases lt_or_le a b with h1 | h1
  · rcases lt_or_le b c with h2 | h2
    · rw [show torch_argmax [a, b, c] = 2 from by
        simp [torch_argmax, torch_argmax_aux, h1, h2]]
      simp [max_eq_right h2.le, max_eq_right (h1.trans h2).le]
    · rw [show torch_argmax [a, b, c] = 1 from by
        simp [torch_argmax, torch_argmax_aux, h1, not_lt.mpr h2]]
      simp [max_eq_left h2, max_eq_right h1.le]
  · rcases lt_or_le a c with h3 | h3
    · rw [show torch_argmax [a, b, c] = 2 from by
        simp [torch_argmax, torch_argmax_aux, not_lt.mpr h1, h3]]
      have hbc : b < c := lt_of_le_of_lt h1 h3
      simp [max_eq_right hbc.le, max_eq_right h3.le]
    · rw [show torch_argmax [a, b, c] = 0 from by
        simp [torch_argmax, torch_argmax_aux, not_lt.mpr h1, not_lt.mpr h3]]
      simp [max_eq_left (max_le h1 h3)]

/-- The first-maximum scan over three entries stays within bounds. -/
theorem torch_argmax_three_le (a b c : ℚ) : torch_argmax [a, b, c] ≤ 2 := by
  simp only [torch_argmax, torch_argmax_aux]
  split_ifs <;> omega

/-- The first-maximum scan over four entries stays within bounds. -/
theorem torch_argmax_four_le (a b c d : ℚ) : torch_argmax [a, b, c, d] ≤ 3 := by
  simp only [torch_argmax, torch_argmax_aux]
  split_ifs <;> omega

/-- C10. Over any 4-entry probability vector, the diagnosis of `predict` is
one of the three public class names - never the dropped training class.
When the model's argmax is index 0, the result is the name of the best
class among indices 1 - 3 with that class's probability as the confidence
(`max(p1, p2, p3)`); otherwise the result is `CLASS_NAMES[old_idx - 1]`
with probability `probs[old_idx]`. -/
theorem remap_prediction_spec (p0 p1 p2 p3 : ℚ) :
    (predict_diagnosis [p0, p1, p2, p3]).1 ∈ CLASS_NAMES ∧
    (torch_argmax [p0, p1, p2, p3] = 0 →
      (predict_diagnosis [p0, p1, p2, p3]).2.1 = max p1 (max p2 p3) ∧
      (predict_diagnosis [p0, p1, p2, p3]).1
        = CLASS_NAMES.getD (torch_argmax [p1, p2, p3]) "") ∧
    (∀ i, torch_argmax [p0, p1, p2, p3] = i → i ≠ 0 →
      (predict_diagnosis [p0, p1, p2, p3]).1 = CLASS_NAMES.getD (i - 1) "" ∧
      (predict_diagnosis [p0, p1, p2, p3]).2.1 = [p0, p1, p2, p3].getD i 0) := by
  refine ⟨?_, ?_, ?_⟩
  · by_cases h0 : torch_argmax [p0, p1, p2, p3] = 0
    · simp only [predict_diagnosis, h0, _remap_prediction, if_pos, List.getD]
      have hle := torch_argmax_three_le p1 p2 p3
      interval_cases h : torch_argmax [p1, p2, p3] <;> simp [h, CLASS_NAMES]
    · have hle := torch_argmax_four_le p0 p1 p2 p3
      simp only [predict_diagnosis, _remap_prediction, if_neg h0]
      interval_cases h : torch_argmax [p0, p1, p2, p3] <;> simp [h, CLASS_NAMES]
  · intro h0
    simp only [predict_diagnosis, h0, _remap_prediction, if_pos]
    norm_num [List.getD]
    simpa [List.getD] using getD_torch_argmax_three p1 p2 p3
  · intro i hi hne
    simp only [predict_diagnosis, hi, _remap_prediction, if_neg hne]
    simp

/-- Witness for `remap_prediction_spec` at a concrete probability vector
whose argmax is index 3, instantiating the shift-down branch. -/
theorem remap_prediction_spec_witness :
    torch_argmax [(1 : ℚ), 2, 2, 5] = 3 ∧
    ((predict_diagnosis [(1 : ℚ), 2, 2, 5]).1 = CLASS_NAMES.getD (3 - 1) "" ∧
      (predict_diagnosis [(1 : ℚ), 2, 2, 5]).2.1 = [(1 : ℚ), 2, 2, 5].getD 3 0) :=
  ⟨by decide,
    (remap_prediction_spec 1 2 2 5).2.2 3 (by decide) (by decide)⟩

end ECG
